import Mathlib

/-!
Shallow embedding of the input-resolution and configuration-consistency
subsystem of tiktok-dl (src/tiktok_common.py, src/tiktok_dl.py), together
with theorems settling the frozen claims about it.

Python strings are modelled as Lean `String`/`List Char` with ASCII-level
case folding and whitespace (the repository's identifiers are ASCII; the
regexes it uses are written over ASCII classes).
-/

namespace TiktokDl

/-- Python exception kinds raised by the modelled code paths. -/
inductive PyErr where
  | keyError
  | valueError
  | typeError
  | attributeError
  | ignoreError
  | recursionError
  deriving DecidableEq, Repr

/-- Models Python `str.strip`'s whitespace test for the ASCII range:
space, tab, newline, carriage return, vertical tab, form feed. -/
def pyIsSpace (c : Char) : Bool :=
  c.toNat == 32 || c.toNat == 9 || c.toNat == 10 || c.toNat == 13 ||
    c.toNat == 11 || c.toNat == 12

/-- Models Python `str.lower` on one character (ASCII range): maps
`A`-`Z` (codes 65-90) to `a`-`z` by adding 32, leaves the rest alone. -/
def pyToLower (c : Char) : Char :=
  if h : 65 ≤ c.toNat ∧ c.toNat ≤ 90 then
    ⟨c.val + 32, by
      have hv : c.val.toNat = c.toNat := rfl
      have h32 : (32 : UInt32).toNat = 32 := rfl
      have hs : UInt32.size = 4294967296 := rfl
      have : (c.val + 32).toNat = c.toNat + 32 := by
        rw [UInt32.toNat_add, h32, hv, Nat.mod_eq_of_lt (by omega)]
      rw [UInt32.isValidChar, this]
      exact Or.inl (by omega)⟩
  else c

/-- Models `str.lower` over a whole string (character map). -/
def pyLower (cs : List Char) : List Char := cs.map pyToLower

/-- Drops the trailing run of whitespace characters. -/
def dropTrailingWs (cs : List Char) : List Char :=
  (cs.reverse.dropWhile pyIsSpace).reverse

/-- Models `str.strip`: removes leading and trailing whitespace. -/
def pyStripL (cs : List Char) : List Char :=
  dropTrailingWs (cs.dropWhile pyIsSpace)

/-- Character class `[a-z\d_.]` of the username regex in
`Username.is_valid` (src/tiktok_common.py:270) and of the link regex in
`Link.is_valid` (src/tiktok_common.py:328). -/
def isUserChar (c : Char) : Bool :=
  (97 ≤ c.toNat && c.toNat ≤ 122) || (48 ≤ c.toNat && c.toNat ≤ 57) ||
    c.toNat == 95 || c.toNat == 46

/-- ASCII digit test, modelling the regex class `\d`. -/
def isDigitA (c : Char) : Bool :=
  48 ≤ c.toNat && c.toNat ≤ 57

/-- Models `clean_up_username` / `Username.__init__`
(src/tiktok_common.py:244): `user.strip().lower()`. -/
def clean_up_username (s : String) : String :=
  String.mk (pyLower (pyStripL s.data))

/-- Models `Username.is_valid` (src/tiktok_common.py:260-273): full match
of `[a-z\d_.]+`, so non-empty and every character in the class. -/
def username_is_valid (s : String) : Bool :=
  !s.data.isEmpty && s.data.all isUserChar

/-- Models `clean_up_date` / `Date.__init__` (src/tiktok_common.py:350):
`date.strip()` only. -/
def clean_up_date (s : String) : String :=
  String.mk (pyStripL s.data)

/-- Models `Date.is_valid` (src/tiktok_common.py:366-378): full match of
`\d{8}`. -/
def date_is_valid (s : String) : Bool :=
  s.data.length == 8 && s.data.all isDigitA

/-- The final cleaning step of `Link.__init__`
(src/tiktok_common.py:295-296): strip one trailing `/` if the link is
non-empty and ends with `/`. -/
def drop_one_trailing_slash (b : List Char) : List Char :=
  if b.getLast? == some '/' then b.dropLast else b

/-- Models `clean_up_link` / the normalisation in `Link.__init__`
(src/tiktok_common.py:292-296): `link.strip().lower()`, truncate at the
first `?` if one is present (`link[:link.find('?')]`), then strip one
trailing `/`. Taking the longest `?`-free prefix coincides with Python's
conditional truncation. -/
def clean_up_link_chars (cs : List Char) : List Char :=
  drop_one_trailing_slash
    ((pyLower (pyStripL cs)).takeWhile (fun c => c != '?'))

/-- String-level wrapper for `clean_up_link_chars`. -/
def clean_up_link (s : String) : String :=
  String.mk (clean_up_link_chars s.data)

/-- Consumes the prefix of the link regex
`https://www.tiktok.com/@` (src/tiktok_common.py:328). The two `.`
characters of `www.tiktok.com` are unescaped regex wildcards in the
source, so they match any single character here as well. Returns the
remainder after `@`, or `none` when the prefix does not match. -/
def link_regex_head : List Char → Option (List Char)
  | 'h' :: 't' :: 't' :: 'p' :: 's' :: ':' :: '/' :: '/' ::
    'w' :: 'w' :: 'w' :: _ :: 't' :: 'i' :: 'k' :: 't' :: 'o' :: 'k' ::
    _ :: 'c' :: 'o' :: 'm' :: '/' :: '@' :: rest => some rest
  | _ => none

/-- Matches `[a-z\d_.]+/video/` followed by digits, returning the digit
run; the username class cannot contain `/`, so the greedy split below is
the unique way the regex can match. -/
def link_regex_tail (cs : List Char) : Option (List Char) :=
  let u := cs.takeWhile isUserChar
  let r := cs.drop u.length
  if u.isEmpty then none
  else
    match r with
    | '/' :: 'v' :: 'i' :: 'd' :: 'e' :: 'o' :: '/' :: ds =>
      if ds.all isDigitA then some ds else none
    | _ => none

/-- Models `link_is_valid` / `Link.is_valid` (src/tiktok_common.py:318-332):
full match of `https://www.tiktok.com/@[a-z\d_.]+/video/\d{19}`, with
exactly nineteen digits in the id segment. -/
def link_is_valid (s : String) : Bool :=
  match link_regex_head s.data with
  | some rest =>
    match link_regex_tail rest with
    | some ds => ds.length == 19
    | none => false
  | none => false

/-- Modelled from the spec: the looser owner-extraction pattern of
`extract_username_from_link`, which is exported by src/tiktok_common.py's
docstring and called from src/tiktok_dl.py but whose definition is not
under src/. Per spec §3 and §4.1 it accepts any non-empty run of digits
for the video id instead of exactly nineteen. -/
def loose_link_is_valid (s : String) : Bool :=
  match link_regex_head s.data with
  | some rest =>
    match link_regex_tail rest with
    | some ds => !ds.isEmpty
    | none => false
  | none => false

/-- Python `s.find(c)`: index of the first occurrence or `-1`. -/
def py_find_char (cs : List Char) (c : Char) : Int :=
  match cs.findIdx? (fun x => x == c) with
  | some i => (i : Int)
  | none => -1

/-- Python slice `s[:k]` for an arbitrary integer `k` (a negative index
counts from the end, clamped at zero). -/
def py_slice_to (cs : List Char) (k : Int) : List Char :=
  if 0 ≤ k then cs.take k.toNat
  else cs.take (cs.length - min cs.length k.natAbs)

/-- Python slice `s[k:]` for an arbitrary integer `k`. -/
def py_slice_from (cs : List Char) (k : Int) : List Char :=
  if 0 ≤ k then cs.drop k.toNat
  else cs.drop (cs.length - min cs.length k.natAbs)

/-- Models the owner extraction in `Link.__init__`
(src/tiktok_common.py:299-300): `user = link[link.find('@') + 1:]` then
`user[:user.find('/')]`, with Python's `-1`-on-absence find semantics. -/
def extract_user_segment (s : String) : String :=
  let cs := s.data
  let u := py_slice_from cs (py_find_char cs '@' + 1)
  String.mk (py_slice_to u (py_find_char u '/'))

/-- Whether a cleaned link ends in a character that a second cleaning
pass would still touch: a trailing `/` (stripped again) or trailing
whitespace exposed by `?`-truncation (stripped again). -/
def ends_clean (s : String) : Bool :=
  match s.data.getLast? with
  | none => true
  | some c => !pyIsSpace c && c != '/'

/-- The state of a `Link` instance: the cleaned `link` string and the
`user` extracted from it (src/tiktok_common.py:279-302). -/
structure LinkV where
  link : String
  user : String
  deriving DecidableEq, Repr

/-- Models `Link.__init__` on a string argument: clean the link, then
extract the user when the cleaned link is valid, else store a blank
username. -/
def mkLink (raw : String) : LinkV :=
  let l := clean_up_link raw
  if link_is_valid l then ⟨l, extract_user_segment l⟩ else ⟨l, ""⟩

/-- Modelled from the spec: `extract_username_from_link`
(missing from src/, see `loose_link_is_valid`): normalises the link,
checks the looser digit-run pattern, raises `ValueError` when it does not
match, and otherwise returns the owner segment (spec §4.1; behaviour also
fixed by test_tiktok_common.py's `ExtractUsernameFromLinkTestCase`). -/
def extract_username_from_link (s : String) : Except PyErr String :=
  let l := clean_up_link s
  if loose_link_is_valid l then .ok (extract_user_segment l)
  else .error .valueError

/-- Python values that flow through `UserConfig`: JSON-decoded data
(`str`, `int`, `bool`, `null`, arrays, objects) plus the `Date`, `Link`
and `Username` instances that the class stores in its map. Object keys
decoded from JSON are always `str`; the `dict` constructor keeps general
`PyVal` keys because `json.dump` must type-check them (`save_config`). -/
inductive PyVal where
  | str (s : String)
  | int (n : Int)
  | bool (b : Bool)
  | null
  | arr (xs : List PyVal)
  | dict (kvs : List (PyVal × PyVal))
  | dateObj (date : String)
  | linkObj (link : String) (user : String)
  | usernameObj (name : String)

/-- One user's configuration dict. `UserConfig` code only ever creates
the keys `notbefore`, `ignore` and `comment`
(src/tiktok_common.py:453), so the dict is modelled as three optional
slots; a `none` slot is an absent key (the `ValueError` branch of
`__get_property`). -/
structure UserRec where
  notbefore : Option PyVal
  comment : Option PyVal
  ignore : Option (List PyVal)

/-- The in-memory map `self.config` of `UserConfig`. Keys are `Username`
instances whose dataclass `__eq__` compares the folded `name` strings, so
the map is modelled as an insertion-ordered association list keyed by the
folded name. -/
def UCState := List (String × UserRec)

/-- The empty configuration created by `UserConfig.__init__`. -/
def emptyUC : UCState := []

/-- Dict lookup among `Username` keys: both the stored keys and the query
are `Username` instances, whose constant dataclass hash always collides
and whose `__eq__` compares names, so lookup is name equality. -/
def lookup_user (st : UCState) (u : String) : Option UserRec :=
  match st.find? (fun p => p.1 == u) with
  | some p => some p.2
  | none => none

/-- Dict assignment `config[user] = rec`: replaces the value in place
when the key is present (CPython dicts keep the original position),
otherwise appends the new key at the end. -/
def set_user : UCState → String → UserRec → UCState
  | [], u, r => [(u, r)]
  | (k, v) :: t, u, r =>
    if k == u then (k, r) :: t else (k, v) :: set_user t u r

/-- Models `UserConfig.__create_new_user` (src/tiktok_common.py:435-453):
raises `KeyError` when the username is invalid, else inserts the default
record with `notbefore` `"20000101"`, empty `ignore` list and blank
`comment`. -/
def create_new_user (st : UCState) (u : String) : Except PyErr UCState :=
  if username_is_valid u then
    .ok (set_user st u ⟨some (.str "20000101"), some (.str ""), some []⟩)
  else .error .keyError

/-- Models `UserConfig.user_is_configured` (src/tiktok_common.py:414-431):
folds the name and tests membership. -/
def user_is_configured (st : UCState) (user : String) : Bool :=
  (lookup_user st (clean_up_username user)).isSome

/-- Updates an existing user's record in place; the callers below only
invoke it right after ensuring the user exists, mirroring
`self.config[user][property] = value`. -/
def set_field (st : UCState) (u : String) (f : UserRec → UserRec) :
    Except PyErr UCState :=
  match lookup_user st u with
  | some r => .ok (set_user st u (f r))
  | none => .error .keyError

/-- Models `UserConfig.__set_property` (src/tiktok_common.py:455-473):
creates the user's record if absent, then assigns the property. -/
def set_property (st : UCState) (u : String) (f : UserRec → UserRec) :
    Except PyErr UCState :=
  match lookup_user st u with
  | some _ => set_field st u f
  | none =>
    match create_new_user st u with
    | .ok st1 => set_field st1 u f
    | .error e => .error e

/-- Models `UserConfig.__get_property` (src/tiktok_common.py:475-503):
`KeyError` when the user is absent, `ValueError` when the record lacks
the property, else the stored value. -/
def get_property (st : UCState) (u : String)
    (proj : UserRec → Option PyVal) : Except PyErr PyVal :=
  match lookup_user st u with
  | some r =>
    match proj r with
    | some v => .ok v
    | none => .error .valueError
  | none => .error .keyError

/-- Models `UserConfig.get_not_before` (src/tiktok_common.py:574-600). -/
def get_not_before (st : UCState) (user : String) : Except PyErr PyVal :=
  get_property st (clean_up_username user) (fun r => r.notbefore)

/-- Models `UserConfig.get_comment` (src/tiktok_common.py:629-654). -/
def get_comment (st : UCState) (user : String) : Except PyErr PyVal :=
  get_property st (clean_up_username user) (fun r => r.comment)

/-- Models `UserConfig.set_not_before` (src/tiktok_common.py:602-627):
converts the strings, raises `ValueError` on an invalid date, then sets
the property (creating the user if needed). -/
def set_not_before (st : UCState) (user date : String) :
    Except PyErr UCState :=
  let u := clean_up_username user
  let d := clean_up_date date
  if date_is_valid d then
    set_property st u (fun r => { r with notbefore := some (.dateObj d) })
  else .error .valueError

/-- Models `UserConfig.set_comment` (src/tiktok_common.py:656-677). -/
def set_comment (st : UCState) (user comment : String) :
    Except PyErr UCState :=
  set_property st (clean_up_username user)
    (fun r => { r with comment := some (.str comment) })

/-- Models `UserConfig.set` (src/tiktok_common.py:679-725), state effect
only (the returned `Username` does not affect the map): dispatches on the
property name, rejecting `ignore` with `IgnoreError` and anything unknown
with `AttributeError`. -/
def set_dispatch (st : UCState) (property user value : String) :
    Except PyErr UCState :=
  if property == "notbefore" then set_not_before st user value
  else if property == "comment" then set_comment st user value
  else if property == "ignore" then .error .ignoreError
  else .error .attributeError

/-- Models `UserConfig.delete_user` (src/tiktok_common.py:794-812):
`pop` removes the entry when present; when `pop` returns `None` (the
stored values are dicts, never `None`) a `KeyError` is raised. -/
def delete_user (st : UCState) (user : String) : Except PyErr UCState :=
  let u := clean_up_username user
  match lookup_user st u with
  | some _ => .ok (st.filter (fun p => p.1 != u))
  | none => .error .keyError

/-- Element comparison used by `link in list` / `list.remove(link)` on an
ignore list (src/tiktok_common.py:787-788): CPython compares each stored
element with the probe; `Link.__eq__` (directly or via reflected
comparison with a stored `str`) compares the link strings, and any other
stored value compares unequal. -/
def pyEqLink (v : PyVal) (L : LinkV) : Bool :=
  match v with
  | .linkObj l _ => l == L.link
  | .str s => s == L.link
  | _ => false

/-- `list.remove`: drops the first element equal to the probe. -/
def erase_link : List PyVal → LinkV → List PyVal
  | [], _ => []
  | v :: t, L => if pyEqLink v L then t else v :: erase_link t L

/-- The body of `UserConfig.toggle_ignore_link`
(src/tiktok_common.py:785-792) after the `Link` has been built: creates
the owner's record when absent (`KeyError` from `__create_new_user` when
the extracted owner is an invalid username, e.g. for an invalid link),
then removes the link from the owner's ignore list when present
(returning `False`) or appends it (returning `True`). -/
def toggle_link_body (st1 : UCState) (L : LinkV) :
    Except PyErr (Bool × UCState) :=
  match lookup_user st1 L.user with
  | none => .error .keyError
  | some r =>
    match r.ignore with
    | none => .error .keyError
    | some igs =>
      if igs.any (fun v => pyEqLink v L) then
        .ok (false, set_user st1 L.user
          { r with ignore := some (erase_link igs L) })
      else
        .ok (true, set_user st1 L.user
          { r with ignore := some (igs ++ [.linkObj L.link L.user]) })

/-- The ensure-owner-exists step of `toggle_ignore_link`
(src/tiktok_common.py:785-786) followed by the toggle body. -/
def toggle_link_obj (st : UCState) (L : LinkV) :
    Except PyErr (Bool × UCState) :=
  match lookup_user st L.user with
  | some _ => toggle_link_body st L
  | none =>
    match create_new_user st L.user with
    | .ok st1 => toggle_link_body st1 L
    | .error e => .error e

/-- Models `UserConfig.toggle_ignore_link`
(src/tiktok_common.py:753-792): converts the string to a `Link` and runs
the toggle body. -/
def toggle_ignore_link (st : UCState) (raw : String) :
    Except PyErr (Bool × UCState) :=
  toggle_link_obj st (mkLink raw)

/-- Lookup of a `str` key in a JSON-decoded object (`value[k]` with the
decoded dicts, whose keys are all `str`). -/
def dict_find : List (PyVal × PyVal) → String → Option PyVal
  | [], _ => none
  | (.str s, x) :: t, k => if s == k then some x else dict_find t k
  | _ :: t, k => dict_find t k

/-- Models Python subscripting `value[k]` inside `load_config`:
`KeyError` when a dict lacks the key, `TypeError` when the decoded value
is not subscriptable by a string (lists, numbers, booleans, `None`) or is
one of the non-subscriptable class instances. -/
def pyGetItem (v : PyVal) (k : String) : Except PyErr PyVal :=
  match v with
  | .dict kvs =>
    match dict_find kvs k with
    | some x => .ok x
    | none => .error .keyError
  | _ => .error .typeError

/-- Models `Date(value)` inside `load_config`
(src/tiktok_common.py:338-350): `value.strip()` succeeds only on a
string (`AttributeError` otherwise) and stores the trimmed text. -/
def mkDateOf (v : PyVal) : Except PyErr String :=
  match v with
  | .str s => .ok (clean_up_date s)
  | _ => .error .attributeError

/-- Models `for link in value["ignore"]`: lists iterate their elements, a
string iterates its characters as one-character strings, a dict iterates
its keys, and everything else raises `TypeError`. -/
def pyIterElems (v : PyVal) : Except PyErr (List PyVal) :=
  match v with
  | .arr xs => .ok xs
  | .str s => .ok (s.data.map (fun c => .str (String.mk [c])))
  | .dict kvs => .ok (kvs.map (fun p => p.1))
  | _ => .error .typeError

/-- Models `Link(link)` inside the ignore loop of `load_config`:
`Link.__init__` calls `link.strip()`, so a non-string element raises
`AttributeError`; a string element builds the `Link` instance. -/
def mkLinkOf (v : PyVal) : Except PyErr LinkV :=
  match v with
  | .str s => .ok (mkLink s)
  | _ => .error .attributeError

/-- Models the membership test `new_key in new_config` on
src/tiktok_common.py:541. `new_config` is the freshly JSON-decoded dict,
whose keys are Python `str` objects, while `new_key` is a `Username`
instance. CPython dict lookup compares the stored 64-bit hash with the
probe's hash before ever calling `__eq__`; `Username` is a frozen
dataclass with no declared fields, so its generated `__hash__` returns
the constant `hash(())`, which never equals the randomised SipHash of any
`str` key. The test therefore evaluates to `False` for every document,
and the documented case-collision skip never fires. -/
def username_key_collides (_nk : String)
    (_doc : List (String × PyVal)) : Bool :=
  false

/-- The ignore-list filling loop of `load_config`
(src/tiktok_common.py:552-555): builds each `Link`, keeps only the valid
ones, and appends them (as `Link` instances) to the record's list. -/
def append_valid_links (st : UCState) (u : String) :
    List PyVal → Except PyErr UCState
  | [] => .ok st
  | e :: t =>
    match mkLinkOf e with
    | .error err => .error err
    | .ok L =>
      if link_is_valid L.link then
        match set_field st u (fun r =>
            { r with ignore :=
                r.ignore.map (fun l => l ++ [.linkObj L.link L.user]) }) with
        | .ok st1 => append_valid_links st1 u t
        | .error err => .error err
      else append_valid_links st u t

/-- Processing of one `key, value` pair of the loop in `load_config`
(src/tiktok_common.py:539-555): fold the key, evaluate the (never-taken)
case-collision skip, create the record (`KeyError` on an invalid folded
key), validate `notbefore` as a `Date` (`ValueError` when the eight-digit
check fails), copy `comment` verbatim, and append the valid ignore
links. -/
def load_one (cfg : UCState) (doc : List (String × PyVal))
    (k : String) (v : PyVal) : Except PyErr UCState :=
  if (clean_up_username k != k) &&
      username_key_collides (clean_up_username k) doc then
    .ok cfg
  else
    match create_new_user cfg (clean_up_username k) with
    | .error e => .error e
    | .ok cfg1 =>
      match pyGetItem v "notbefore" with
      | .error e => .error e
      | .ok nbRaw =>
        match mkDateOf nbRaw with
        | .error e => .error e
        | .ok d =>
          if date_is_valid d then
            match set_field cfg1 (clean_up_username k)
                (fun r => { r with notbefore := some (.dateObj d) }) with
            | .error e => .error e
            | .ok cfg2 =>
              match pyGetItem v "comment" with
              | .error e => .error e
              | .ok cRaw =>
                match set_field cfg2 (clean_up_username k)
                    (fun r => { r with comment := some cRaw }) with
                | .error e => .error e
                | .ok cfg3 =>
                  match pyGetItem v "ignore" with
                  | .error e => .error e
                  | .ok igRaw =>
                    match pyIterElems igRaw with
                    | .error e => .error e
                    | .ok elems => append_valid_links cfg3
                        (clean_up_username k) elems
          else .error .valueError

/-- The full `for key, value in new_config.items()` loop, threading the
fresh `config` dict; any raised error aborts the whole loop. -/
def load_entries (doc : List (String × PyVal)) (cfg : UCState) :
    List (String × PyVal) → Except PyErr UCState
  | [] => .ok cfg
  | (k, v) :: t =>
    match load_one cfg doc k v with
    | .ok cfg1 => load_entries doc cfg1 t
    | .error e => .error e

/-- Models `UserConfig.load_config` (src/tiktok_common.py:507-556) on an
already JSON-decoded top-level object (file reading and JSON parsing
failures propagate before this body runs and so never touch the map).
A fresh `config` is built from scratch and becomes the new map only when
every record validates; the result is the new map on success. -/
def load_config (doc : List (String × PyVal)) : Except PyErr UCState :=
  load_entries doc emptyUC doc

/-- The map observed after calling `load_config` on a store holding
`st`: the successful result replaces `self.config`; a raised error
propagates with the assignment on src/tiktok_common.py:556 never
executed, leaving `st` in place. -/
def after_load (st : UCState) (doc : List (String × PyVal)) : UCState :=
  match load_config doc with
  | .ok st2 => st2
  | .error _ => st

/-- Minimal model of Python's `json` string rendering: the enclosing
quotes plus backslash escapes for the quote, backslash and the common
control characters (ASCII model of `json.dump`'s output). -/
def json_escape_char (c : Char) : String :=
  if c == '"' then "\\\""
  else if c == '\\' then "\\\\"
  else if c == '\n' then "\\n"
  else if c == '\t' then "\\t"
  else if c == '\r' then "\\r"
  else String.mk [c]

/-- Renders a JSON string literal. -/
def json_render_string (s : String) : String :=
  "\"" ++ String.join (s.data.map json_escape_char) ++ "\""

/-- `json.dump`'s treatment of dict keys: `str` keys are rendered
directly, `int`/`bool`/`None` keys are coerced to their string forms,
and any other key type raises
`TypeError: keys must be str, int, float, bool or None`. -/
def json_key (k : PyVal) : Except PyErr String :=
  match k with
  | .str s => .ok (json_render_string s)
  | .int n => .ok (json_render_string (toString n))
  | .bool b => .ok (json_render_string (if b then "true" else "false"))
  | .null => .ok (json_render_string "null")
  | _ => .error .typeError

/-- Comma-joins already rendered fragments with `json.dump`'s default
`", "` item separator. -/
def joinComma : List String → String
  | [] => ""
  | [x] => x
  | x :: t => x ++ ", " ++ joinComma t

mutual

/-- Models `json.dump` on a Python value: serialises JSON-compatible
values and raises `TypeError` for `Date`, `Link` and `Username`
instances, which define no JSON encoding. -/
def json_dump : PyVal → Except PyErr String
  | .str s => .ok (json_render_string s)
  | .int n => .ok (toString n)
  | .bool b => .ok (if b then "true" else "false")
  | .null => .ok "null"
  | .arr xs => do
    let parts ← json_dump_list xs
    .ok ("[" ++ joinComma parts ++ "]")
  | .dict kvs => do
    let parts ← json_dump_entries kvs
    .ok ("\x7b" ++ joinComma parts ++ "\x7d")
  | .dateObj _ => .error .typeError
  | .linkObj _ _ => .error .typeError
  | .usernameObj _ => .error .typeError

/-- Serialises the elements of a JSON array. -/
def json_dump_list : List PyVal → Except PyErr (List String)
  | [] => .ok []
  | v :: t => do
    let s ← json_dump v
    let rest ← json_dump_list t
    .ok (s :: rest)

/-- Serialises the entries of a dict, type-checking each key. -/
def json_dump_entries : List (PyVal × PyVal) → Except PyErr (List String)
  | [] => .ok []
  | (k, v) :: t => do
    let ks ← json_key k
    let vs ← json_dump v
    let rest ← json_dump_entries t
    .ok ((ks ++ ": " ++ vs) :: rest)

end

/-- Presence-preserving rendering of one record as the Python dict held
in `self.config`: the keys are created in the order `notbefore`,
`ignore`, `comment` (src/tiktok_common.py:453) and later assignments
keep their positions. -/
def record_to_pyval (r : UserRec) : PyVal :=
  .dict ((match r.notbefore with
      | some v => [((.str "notbefore" : PyVal), v)]
      | none => []) ++
    (match r.ignore with
      | some l => [((.str "ignore" : PyVal), .arr l)]
      | none => []) ++
    (match r.comment with
      | some v => [((.str "comment" : PyVal), v)]
      | none => []))

/-- The Python value `self.config` that `save_config` hands to
`json.dump`: a dict whose keys are the stored `Username` instances and
whose values are the per-user dicts. -/
def config_to_pyval (st : UCState) : PyVal :=
  .dict (st.map (fun p => (.usernameObj p.1, record_to_pyval p.2)))

/-- Models `UserConfig.save_config` (src/tiktok_common.py:558-572):
`json.dump(self.config, script)`; the produced text is returned (file
I/O is outside the model, and `open` for writing succeeds before the
dump runs). -/
def save_config (st : UCState) : Except PyErr String :=
  json_dump (config_to_pyval st)

/-- The public mutating operations of `UserConfig` (`save_config` and
the getters do not mutate; `set` delegates to the two setters but is
listed for completeness). -/
inductive UOp where
  | loadOp (doc : List (String × PyVal))
  | setNotBeforeOp (user date : String)
  | setCommentOp (user comment : String)
  | setOp (property user value : String)
  | toggleOp (link : String)
  | deleteOp (user : String)

/-- Whether the operation is a `load_config` call. -/
def UOp.isLoad : UOp → Bool
  | .loadOp _ => true
  | _ => false

/-- Runs one public operation, returning the new map or the raised
error. -/
def apply_op (st : UCState) : UOp → Except PyErr UCState
  | .loadOp doc => load_config doc
  | .setNotBeforeOp u d => set_not_before st u d
  | .setCommentOp u c => set_comment st u c
  | .setOp p u v => set_dispatch st p u v
  | .toggleOp l => (toggle_ignore_link st l).map (fun r => r.2)
  | .deleteOp u => delete_user st u

/-- The map observed after one public operation: every operation above
either raises before touching `self.config` or completes its mutation,
so a raised error leaves the previous map in place (checked against each
method body; `toggle_ignore_link`'s only post-creation failure requires a
record without an `ignore` key, in which case no creation happened). -/
def step_op (st : UCState) (op : UOp) : UCState :=
  match apply_op st op with
  | .ok st2 => st2
  | .error _ => st

/-- Policy Store states reachable from the freshly constructed (empty)
`UserConfig` by any sequence of public operations, failed calls
included. -/
inductive Reachable : UCState → Prop where
  | init : Reachable emptyUC
  | step {st : UCState} (op : UOp) :
      Reachable st → Reachable (step_op st op)

/-- States reachable when `load_config` is never among the operations
performed. -/
inductive ReachableNL : UCState → Prop where
  | init : ReachableNL emptyUC
  | step {st : UCState} (op : UOp) (hop : op.isLoad = false) :
      ReachableNL st → ReachableNL (step_op st op)

/-- A record carrying all three properties (the shape produced by
`__create_new_user`). -/
def rec_shaped (r : UserRec) : Bool :=
  r.notbefore.isSome && r.comment.isSome && r.ignore.isSome

/-- Every stored record carries all three properties. -/
def well_shaped (st : UCState) : Bool :=
  st.all (fun p => rec_shaped p.2)

/-- One map entry satisfying the spec's ignore-ownership rule: every
entry of the user's ignore list is a `Link` instance whose extracted
owner equals the map key it is stored under. -/
def entry_owned (p : String × UserRec) : Bool :=
  (p.2.ignore.getD []).all (fun v =>
    match v with
    | .linkObj l _ => extract_user_segment l == p.1
    | _ => false)

/-- The ignore-ownership invariant from the spec, over the whole map. -/
def ignore_owned (st : UCState) : Bool :=
  st.all entry_owned

/-- Every map key is a valid folded username (auxiliary strengthening
for the ownership induction; all record-creating paths other than
`load_config` go through `__create_new_user`'s validity check). -/
def keys_valid (st : UCState) : Bool :=
  st.all (fun p => username_is_valid p.1)

/-- The combined induction invariant for load-free reachability: valid
keys and owned ignore entries. -/
def nl_entry_ok (p : String × UserRec) : Bool :=
  username_is_valid p.1 && entry_owned p

/-- `nl_entry_ok` over the whole map. -/
def inv_nl (st : UCState) : Bool :=
  st.all nl_entry_ok

/-- The ignore list a user observably has: the stored list, or the empty
list for an unconfigured user / an absent `ignore` key. -/
def ignore_list_of (st : UCState) (u : String) : List PyVal :=
  match lookup_user st u with
  | some r => r.ignore.getD []
  | none => []

/-- The `notbefore` value of a user's record reduced to a plain string
(either the initial `"20000101"` string or the stored `Date`'s text),
for stating concrete load results. -/
def notbefore_string (st : UCState) (u : String) : Option String :=
  match lookup_user st u with
  | some r =>
    match r.notbefore with
    | some (.dateObj d) => some d
    | some (.str s) => some s
    | _ => none
  | none => none

/-- The `comment` value of a user's record when it is a plain string. -/
def comment_string (st : UCState) (u : String) : Option String :=
  match lookup_user st u with
  | some r =>
    match r.comment with
    | some (.str s) => some s
    | _ => none
  | none => none

/-- The external collaborators of the Input Resolver: which paths name
existing files (`Path(input).is_file()`), the raw lines of a file, and
the links returned when scraping a user's page (`scrape_from_user`,
whose network backends are outside the model per spec §6). -/
structure ResolveEnv where
  isFile : String → Bool
  fileLines : String → List String
  fetch : String → List String

/-- The tuple built by `process_inputs`: link set, username set, HTML
source set, per-HTML-file link counts, plus the list of inputs reported
as `Invalid input:` on the notification stream. The sets are modelled as
insertion-ordered duplicate-free lists. -/
structure Resolution where
  links : List String
  users : List String
  htmls : List String
  htmlCounts : List (String × Nat)
  invalid : List String
  deriving DecidableEq, Repr

/-- The empty resolution. -/
def emptyRes : Resolution := ⟨[], [], [], [], []⟩

/-- `set.add`: appends the element unless already present. -/
def set_add (l : List String) (x : String) : List String :=
  if l.contains x then l else l ++ [x]

/-- `set.union`: folds the right operand's elements into the left. -/
def set_union (a b : List String) : List String :=
  b.foldl set_add a

/-- `dict | dict` merge used for the HTML link counts: entries of the
right operand override the left. -/
def counts_or (a b : List (String × Nat)) : List (String × Nat) :=
  a.filter (fun p => !(b.map (fun q => q.1)).contains p.1) ++ b

/-- Union of two resolutions, as performed in the file branch of
`__process_inputs_internal` (src/tiktok_dl.py:470-475). -/
def merge_res (a b : Resolution) : Resolution :=
  ⟨set_union a.links b.links, set_union a.users b.users,
    set_union a.htmls b.htmls, counts_or a.htmlCounts b.htmlCounts,
    a.invalid ++ b.invalid⟩

/-- Models `os.path.samefile` (`the_same_filepath`,
src/tiktok_common.py:41-61) as path-string equality; the `try`/`except`
returning `False` on error is subsumed. -/
def the_same_filepath (a b : String) : Bool :=
  a == b

/-- `str.rfind(sub)`: highest index at which `sub` occurs, or `-1`. -/
def py_rfind_sub (cs pat : List Char) : Int :=
  match ((List.range (cs.length + 1)).filter
      (fun i => pat.isPrefixOf (cs.drop i))).getLast? with
  | some i => (i : Int)
  | none => -1

/-- `str.find(sub)`: lowest index at which `sub` occurs, or `-1`. -/
def py_find_sub (cs pat : List Char) : Int :=
  match (List.range (cs.length + 1)).find?
      (fun i => pat.isPrefixOf (cs.drop i)) with
  | some i => (i : Int)
  | none => -1

/-- Start indices of the non-overlapping occurrences found by
`re.finditer`, scanning left to right and resuming after each match. -/
def finditer_starts (pat : List Char) : Nat → List Char → Nat → List Nat
  | 0, _, _ => []
  | fuelN + 1, rem, i =>
    if pat.isPrefixOf rem then
      i :: finditer_starts pat fuelN (rem.drop pat.length) (i + pat.length)
    else
      match rem with
      | [] => []
      | _ :: t => finditer_starts pat fuelN t (i + 1)

/-- All `re.finditer("/video/", line)` match starts for one line. -/
def video_occurrences (line : List Char) : List Nat :=
  finditer_starts "/video/".data (line.length + 1) line 0

/-- The link carved out of one `/video/` occurrence in an HTML line
(src/tiktok_dl.py:444-449): the text from the last `https://` before the
occurrence (Python's `rfind`/`find` `-1` slice semantics included) up to
the next `"` after it. -/
def carve_link (line : List Char) (i : Nat) : String :=
  let before := py_slice_to line (i : Int)
  let after := py_slice_from line (i : Int)
  let firstHalf := py_slice_from before (py_rfind_sub before "https://".data)
  let secondHalf := py_slice_to after (py_find_sub after "\"".data)
  String.mk (firstHalf ++ secondHalf)

/-- The HTML branch of `scrape_from_file` (src/tiktok_dl.py:437-453):
collects every carved link that passes `link_is_valid` and counts each
hit under the file's path. -/
def scrape_html_lines (path : String) : List String → List String × Nat
  | [] => ([], 0)
  | line :: t =>
    let here := (video_occurrences line.data).foldl
      (fun acc i =>
        let link := carve_link line.data i
        if link_is_valid link then (set_add acc.1 link, acc.2 + 1) else acc)
      (([] : List String), 0)
    let rest := scrape_html_lines path t
    (set_union here.1 rest.1, here.2 + rest.2)

/-- The inner `for user in whitelist` loop for one snapshot link of the
whitelist post-filter (src/tiktok_dl.py:528-531): for every whitelist
member differing from the link's extracted owner, `set.remove(link)` is
attempted on the live set, raising `KeyError` when the link is no longer
there; with two or more such members the second removal always raises. -/
def post_filter_one (wl : List String) (link : String) :
    List String → Except PyErr (List String) :=
  fun cur =>
    wl.foldlM
      (fun c user => do
        let owner ← extract_username_from_link link
        if owner != user then
          if c.contains link then pure (c.erase link)
          else throw .keyError
        else pure c)
      cur

/-- The whitelist post-filter loop of `process_inputs`
(src/tiktok_dl.py:524-531): the second argument is the deep-copied
snapshot being iterated, the third the live set being mutated. -/
def post_filter_links (wl : List String) :
    List String → List String → Except PyErr (List String)
  | [], cur => .ok cur
  | link :: t, cur => do
    let cur1 ← post_filter_one wl link cur
    post_filter_links wl t cur1

/-- The username back-fill loop of `process_inputs`
(src/tiktok_dl.py:533-534). -/
def backfill_users (users : List String) (links : List String) :
    Except PyErr (List String) :=
  links.foldlM
    (fun us l => do
      let owner ← extract_username_from_link l
      pure (set_add us owner))
    users

mutual

/-- Models `__process_inputs_internal` (src/tiktok_dl.py:461-481): each
input is classified as a valid link (after cleaning), an existing file
(recursively expanded), a valid username (page scraped via the `fetch`
collaborator), or else reported as `Invalid input:` and skipped. The
`fuel` argument models Python's recursion limit: every nested call
consumes one unit and exhaustion is `RecursionError`. -/
def process_inputs_internal (fuel : Nat) (env : ResolveEnv)
    (wl : List String) (inputs : List String) (acc : Resolution) :
    Except PyErr Resolution :=
  match fuel with
  | 0 => .error .recursionError
  | f + 1 =>
    match inputs with
    | [] => .ok acc
    | inp :: rest =>
      if link_is_valid (clean_up_link inp) then
        process_inputs_internal f env wl rest
          { acc with links := set_add acc.links (clean_up_link inp) }
      else if env.isFile inp then do
        let sub ← scrape_from_file f env inp wl
        process_inputs_internal f env wl rest (merge_res acc sub)
      else if username_is_valid (clean_up_username inp) then
        process_inputs_internal f env wl rest
          { acc with
            links := set_union acc.links (env.fetch inp),
            users := set_add acc.users (clean_up_username inp) }
      else
        process_inputs_internal f env wl rest
          { acc with invalid := acc.invalid ++ [inp] }

/-- Models `scrape_from_file` (src/tiktok_dl.py:402-459): strips the
file's lines; an empty file contributes nothing; a file starting with
the HTML marker is mined for links and recorded as an HTML source with
its link count; otherwise blank lines and self-references are dropped
and the rest is fed back through `process_inputs` (the source's
rebound `__process_inputs`, so the full wrapper runs, with the session
argument landing in the `method` parameter). -/
def scrape_from_file (fuel : Nat) (env : ResolveEnv) (path : String)
    (wl : List String) : Except PyErr Resolution :=
  match fuel with
  | 0 => .error .recursionError
  | f + 1 =>
    let contents := (env.fileLines path).map
      (fun l => String.mk (pyStripL l.data))
    match contents with
    | [] => .ok emptyRes
    | first :: _ =>
      if first == "<!DOCTYPE html>" then
        let mined := scrape_html_lines path contents
        .ok ⟨mined.1, [], [path], [(path, mined.2)], []⟩
      else
        let filtered := contents.filter
          (fun l => l != "" && !the_same_filepath path l)
        process_inputs f env filtered wl

/-- Models `process_inputs` (src/tiktok_dl.py:483-535): runs the
internal classification, then — only when the whitelist is non-empty —
iterates a snapshot of the link set and, for every whitelist member
whose name differs from a link's extracted owner, calls
`set.remove(link)` on the live set (`KeyError` when the link was already
removed); finally back-fills the username set with the owner of every
surviving link. The `method` parameter only selects the scraping backend
and is absorbed into `env.fetch`. -/
def process_inputs (fuel : Nat) (env : ResolveEnv)
    (inputs : List String) (wl : List String) : Except PyErr Resolution :=
  match fuel with
  | 0 => .error .recursionError
  | f + 1 => do
    let r ← process_inputs_internal f env wl inputs emptyRes
    let links ←
      if wl.length > 0 then post_filter_links wl r.links r.links
      else pure r.links
    let users ← backfill_users r.users links
    .ok { r with links := links, users := users }

end

/-- The record-presence side condition under which `toggle_ignore_link`
does not hit the `KeyError` of a missing `ignore` key: either the owner
is unconfigured (a default record gets created) or the owner's record
has its `ignore` list. -/
def ignore_key_ok (st : UCState) (u : String) : Bool :=
  match lookup_user st u with
  | some r => r.ignore.isSome
  | none => true

/-- The decoded document of the `test_with_invalid_comment` test
(src/test_tiktok_user_config.py:70-75): a record whose `comment` is the
JSON list `[9]`. -/
def doc_nonstring_comment : List (String × PyVal) :=
  [("username", .dict
    [(.str "ignore", .arr [.str "link", .str "link2"]),
     (.str "notbefore", .str "20200505"),
     (.str "comment", .arr [.int 9])])]

/-- A well-formed document whose canonical-cased key `"user1"` comes
first and whose non-canonical variant `"USER1"` comes second, with
distinguishable field values. -/
def doc_case_collision : List (String × PyVal) :=
  [("user1", .dict
    [(.str "notbefore", .str "20200505"),
     (.str "comment", .str "Hello"),
     (.str "ignore", .arr [])]),
   ("USER1", .dict
    [(.str "notbefore", .str "12345678"),
     (.str "comment", .str "abc"),
     (.str "ignore", .arr [])])]

/-- A well-formed document storing a valid link owned by `user2` inside
`user1`'s ignore list. -/
def doc_foreign_link : List (String × PyVal) :=
  [("user1", .dict
    [(.str "notbefore", .str "20200101"),
     (.str "comment", .str ""),
     (.str "ignore", .arr
       [.str "https://www.tiktok.com/@user2/video/1234567891234567890"])])]

/-- A document whose single top-level key folds to an invalid
username. -/
def doc_invalid_key : List (String × PyVal) :=
  [("BAD KEY!", .dict
    [(.str "notbefore", .str "20200505"),
     (.str "comment", .str ""),
     (.str "ignore", .arr [])])]

/-- The store holding exactly one user, as produced by
`set_not_before("user1", "20200101")` on a fresh `UserConfig`. -/
def one_user_store : UCState :=
  [("user1", ⟨some (.dateObj "20200101"), some (.str ""), some []⟩)]

/-- A resolver environment with no existing files and a page fetcher
that finds nothing (spec §6 allows the fetcher to degrade to an empty
result). -/
def resolver_stub_env : ResolveEnv :=
  ⟨fun _ => false, fun _ => [], fun _ => []⟩

/-- The three inputs of Scenario D. -/
def scenario_d_inputs : List String :=
  ["https://www.tiktok.com/@a/video/1111111111111111111",
   "nonexistent_file.txt_placeholder", "not a valid user!!"]

/-- Number of inputs reported as invalid by a resolver run, when it
completed. -/
def resolution_invalid_count (r : Except PyErr Resolution) : Option Nat :=
  match r with
  | .ok x => some x.invalid.length
  | .error _ => none

/-! ## Helper lemmas on characters and strings -/

theorem pyToLower_eq_self {c : Char}
    (h : ¬(65 ≤ c.toNat ∧ c.toNat ≤ 90)) : pyToLower c = c :=
  dif_neg h

theorem pyToLower_toNat_of_upper {c : Char}
    (h : 65 ≤ c.toNat ∧ c.toNat ≤ 90) :
    (pyToLower c).toNat = c.toNat + 32 := by
  unfold pyToLower
  rw [dif_pos h]
  show (c.val + 32).toNat = c.toNat + 32
  have hs : UInt32.size = 4294967296 := rfl
  have h32 : (32 : UInt32).toNat = 32 := rfl
  have hv : c.val.toNat = c.toNat := rfl
  rw [UInt32.toNat_add, h32, hv, Nat.mod_eq_of_lt (by omega)]

theorem pyToLower_idem (c : Char) :
    pyToLower (pyToLower c) = pyToLower c := by
  by_cases h : 65 ≤ c.toNat ∧ c.toNat ≤ 90
  · have ht := pyToLower_toNat_of_upper h
    exact pyToLower_eq_self (by omega)
  · rw [pyToLower_eq_self h]
    exact pyToLower_eq_self h

theorem pyIsSpace_pyToLower (c : Char) :
    pyIsSpace (pyToLower c) = pyIsSpace c := by
  by_cases h : 65 ≤ c.toNat ∧ c.toNat ≤ 90
  · have ht := pyToLower_toNat_of_upper h
    have h1 : pyIsSpace (pyToLower c) = false := by
      simp only [pyIsSpace, Bool.or_eq_false_iff, beq_eq_false_iff_ne, ht]
      omega
    have h2 : pyIsSpace c = false := by
      simp only [pyIsSpace, Bool.or_eq_false_iff, beq_eq_false_iff_ne]
      omega
    rw [h1, h2]
  · rw [pyToLower_eq_self h]

theorem dropWhile_head_false {α} {p : α → Bool} :
    ∀ {l : List α} {a : α} {t : List α},
      List.dropWhile p l = a :: t → p a = false := by
  intro l
  induction l with
  | nil => intro a t h; simp [List.dropWhile] at h
  | cons x xs ih =>
    intro a t h
    by_cases hx : p x
    · rw [List.dropWhile_cons] at h
      simp [hx] at h
      exact ih h
    · rw [List.dropWhile_cons] at h
      simp [hx] at h
      rw [← h.1]
      exact Bool.eq_false_iff.mpr hx

theorem dropWhile_eq_self_of_head {α} {p : α → Bool} {l : List α}
    (h : ∀ a t, l = a :: t → p a = false) :
    List.dropWhile p l = l := by
  cases l with
  | nil => rfl
  | cons a t =>
    rw [List.dropWhile_cons, h a t rfl]
    simp

theorem head_false_of_prefix {α} {p : α → Bool} {y l : List α}
    (hp : y <+: l) (hl : ∀ a t, l = a :: t → p a = false) :
    ∀ a t, y = a :: t → p a = false := by
  intro a t hy
  obtain ⟨u, hu⟩ := hp
  subst hy
  exact hl a (t ++ u) (by rw [← hu]; rfl)

theorem dropTrailingWs_prefix (l : List Char) : dropTrailingWs l <+: l := by
  unfold dropTrailingWs
  obtain ⟨u, hu⟩ := List.dropWhile_suffix (l := l.reverse) pyIsSpace
  exact ⟨u.reverse, by rw [← List.reverse_append, hu, List.reverse_reverse]⟩

theorem pyStripL_head_false {l : List Char} {a : Char} {t : List Char}
    (h : pyStripL l = a :: t) : pyIsSpace a = false := by
  have hp : pyStripL l <+: List.dropWhile pyIsSpace l :=
    dropTrailingWs_prefix _
  exact head_false_of_prefix hp (fun a t ha => dropWhile_head_false ha) a t h

theorem pyStripL_getLast_false {l : List Char} {c : Char}
    (h : (pyStripL l).getLast? = some c) : pyIsSpace c = false := by
  rw [pyStripL, dropTrailingWs, List.getLast?_eq_head?_reverse,
    List.reverse_reverse] at h
  cases hd : List.dropWhile pyIsSpace
      (List.dropWhile pyIsSpace l).reverse with
  | nil => rw [hd] at h; simp at h
  | cons a t =>
    rw [hd] at h
    simp at h
    rw [← h]
    exact dropWhile_head_false hd

theorem pyStripL_eq_self {l : List Char}
    (hh : ∀ a t, l = a :: t → pyIsSpace a = false)
    (hl : ∀ c, l.getLast? = some c → pyIsSpace c = false) :
    pyStripL l = l := by
  unfold pyStripL dropTrailingWs
  rw [dropWhile_eq_self_of_head hh]
  have hrev : List.dropWhile pyIsSpace l.reverse = l.reverse := by
    apply dropWhile_eq_self_of_head
    intro a t h
    exact hl a (by rw [List.getLast?_eq_head?_reverse, h]; rfl)
  rw [hrev, List.reverse_reverse]

theorem pyStripL_idem (l : List Char) :
    pyStripL (pyStripL l) = pyStripL l := by
  apply pyStripL_eq_self
  · intro a t h; exact pyStripL_head_false h
  · intro c h; exact pyStripL_getLast_false h

theorem dropWhile_map {α β} (f : α → β) {p : β → Bool} {q : α → Bool}
    (hpq : ∀ a, p (f a) = q a) :
    ∀ (l : List α),
      List.dropWhile p (l.map f) = (List.dropWhile q l).map f := by
  intro l
  induction l with
  | nil => rfl
  | cons a t ih =>
    simp only [List.map_cons, List.dropWhile_cons, hpq a]
    by_cases h : q a <;> simp [h, ih]

theorem pyStripL_pyLower (l : List Char) :
    pyStripL (pyLower l) = pyLower (pyStripL l) := by
  unfold pyStripL dropTrailingWs pyLower
  rw [dropWhile_map pyToLower pyIsSpace_pyToLower l, ← List.map_reverse,
    dropWhile_map pyToLower pyIsSpace_pyToLower _, ← List.map_reverse]

theorem pyLower_idem (l : List Char) : pyLower (pyLower l) = pyLower l := by
  unfold pyLower
  rw [List.map_map]
  exact List.map_congr_left (fun a _ => pyToLower_idem a)

theorem pyToLower_fix_of_mem {c : Char} {l : List Char}
    (h : c ∈ pyLower l) : pyToLower c = c := by
  rw [pyLower] at h
  obtain ⟨a, _, ha⟩ := List.mem_map.mp h
  rw [← ha, pyToLower_idem]

theorem pyLower_eq_self {l : List Char}
    (h : ∀ c ∈ l, pyToLower c = c) : pyLower l = l := by
  unfold pyLower
  have := List.map_congr_left (l := l) (f := pyToLower) (g := id)
    (fun a ha => h a ha)
  simpa using this

theorem takeWhile_eq_self_of_all {α} {p : α → Bool} :
    ∀ {l : List α}, (∀ c ∈ l, p c = true) → l.takeWhile p = l := by
  intro l
  induction l with
  | nil => intro _; rfl
  | cons a t ih =>
    intro h
    rw [List.takeWhile_cons, h a (by simp)]
    simp [ih (fun c hc => h c (by simp [hc]))]

theorem clean_up_username_idem (x : String) :
    clean_up_username (clean_up_username x) = clean_up_username x := by
  show String.mk (pyLower (pyStripL (pyLower (pyStripL x.data)))) = _
  rw [pyStripL_pyLower, pyStripL_idem, pyLower_idem]
  rfl

theorem clean_up_date_idem (x : String) :
    clean_up_date (clean_up_date x) = clean_up_date x := by
  show String.mk (pyStripL (pyStripL x.data)) = _
  rw [pyStripL_idem]
  rfl

theorem clean_up_link_chars_head_false {d : List Char} {a : Char}
    {t : List Char} (h : pyLower (pyStripL d) = a :: t) :
    pyIsSpace a = false := by
  cases hS : pyStripL d with
  | nil => rw [hS] at h; simp [pyLower] at h
  | cons s s' =>
    rw [hS] at h
    simp only [pyLower, List.map_cons, List.cons.injEq] at h
    rw [← h.1, pyIsSpace_pyToLower]
    exact pyStripL_head_false hS

theorem clean_up_link_chars_prefix (d : List Char) :
    clean_up_link_chars d <+: pyLower (pyStripL d) := by
  unfold clean_up_link_chars drop_one_trailing_slash
  have hB := List.takeWhile_prefix
    (l := pyLower (pyStripL d)) (fun c => c != '?')
  by_cases hc :
      (((pyLower (pyStripL d)).takeWhile (fun c => c != '?')).getLast? ==
        some '/') = true
  · rw [if_pos hc]
    exact (List.dropLast_prefix _).trans hB
  · rw [if_neg hc]
    exact hB

theorem clean_up_link_chars_eq_self {y : List Char}
    (hh : ∀ a t, y = a :: t → pyIsSpace a = false)
    (hlast : ∀ c, y.getLast? = some c → pyIsSpace c = false ∧ c ≠ '/')
    (hfix : ∀ c ∈ y, pyToLower c = c)
    (hq : ∀ c ∈ y, (c != '?') = true) :
    clean_up_link_chars y = y := by
  unfold clean_up_link_chars
  rw [pyStripL_eq_self hh (fun c hc => (hlast c hc).1), pyLower_eq_self hfix,
    takeWhile_eq_self_of_all hq]
  unfold drop_one_trailing_slash
  cases hy : y.getLast? with
  | none => simp
  | some c =>
    have hc := (hlast c hy).2
    have hne : ((some c : Option Char) == some '/') = false :=
      beq_eq_false_iff_ne.mpr (by simpa using hc)
    simp [hne]

theorem clean_up_link_pass2 {x : String}
    (h : ends_clean (clean_up_link x) = true) :
    clean_up_link (clean_up_link x) = clean_up_link x := by
  show String.mk (clean_up_link_chars (clean_up_link_chars x.data)) = _
  have hpre := clean_up_link_chars_prefix x.data
  have hlast : ∀ c, (clean_up_link_chars x.data).getLast? = some c →
      pyIsSpace c = false ∧ c ≠ '/' := by
    intro c hc
    unfold ends_clean clean_up_link at h
    rw [show (String.mk (clean_up_link_chars x.data)).data =
        clean_up_link_chars x.data from rfl, hc] at h
    simp only [Bool.and_eq_true, Bool.not_eq_true', bne_iff_ne] at h
    exact h
  congr 1
  apply clean_up_link_chars_eq_self
  · exact head_false_of_prefix hpre
      (fun a t ha => clean_up_link_chars_head_false ha)
  · exact hlast
  · intro c hc
    exact pyToLower_fix_of_mem (hpre.sublist.subset hc)
  · intro c hc
    have hcB : c ∈ (pyLower (pyStripL x.data)).takeWhile
        (fun c => c != '?') := by
      have : clean_up_link_chars x.data <+:
          (pyLower (pyStripL x.data)).takeWhile (fun c => c != '?') := by
        unfold clean_up_link_chars drop_one_trailing_slash
        by_cases hcnd :
            (((pyLower (pyStripL x.data)).takeWhile
              (fun c => c != '?')).getLast? == some '/') = true
        · rw [if_pos hcnd]; exact List.dropLast_prefix _
        · rw [if_neg hcnd]
      exact this.sublist.subset hc
    exact List.mem_takeWhile_imp (p := fun c => c != '?') hcB

/-! ## Claim C7 -/

/-- C7 counterexample: `normalize_link` is not idempotent. Cleaning
`"a//"` strips one trailing slash and yields `"a/"`, and a second pass
strips the remaining slash, so applying the normaliser twice differs
from applying it once. -/
theorem c7_normalize_link_not_idempotent :
    clean_up_link (clean_up_link "a//") ≠ clean_up_link "a//" := by
  decide

/-- C7, amended: `normalize_username` and `normalize_date` are
idempotent for every string; `normalize_link` is idempotent for every
string whose single-pass result does not end in `/` or whitespace (a
second pass strips exactly those), but not for all strings. -/
theorem c7_normalization_idempotence_amended :
    (∀ x : String, ends_clean (clean_up_link x) = true →
      clean_up_link (clean_up_link x) = clean_up_link x) ∧
    (∀ x : String,
      clean_up_username (clean_up_username x) = clean_up_username x) ∧
    (∀ x : String, clean_up_date (clean_up_date x) = clean_up_date x) :=
  ⟨fun _ h => clean_up_link_pass2 h, clean_up_username_idem,
    clean_up_date_idem⟩

/-- Witness for C7's amended theorem at the concrete input
`" HTTPS://www.tiktok.com/@A/video/1111111111111111111?x "`. -/
theorem c7_normalization_idempotence_amended_witness :
    ends_clean (clean_up_link
      " HTTPS://www.tiktok.com/@A/video/1111111111111111111?x ") = true ∧
    clean_up_link (clean_up_link
      " HTTPS://www.tiktok.com/@A/video/1111111111111111111?x ") =
      clean_up_link
        " HTTPS://www.tiktok.com/@A/video/1111111111111111111?x " :=
  ⟨by decide, c7_normalization_idempotence_amended.1 _ (by decide)⟩

/-! ## Helper lemmas on the Policy Store map -/

theorem except_ok_bind {α β : Type} (a : α) (f : α → Except PyErr β) :
    (Except.ok a >>= f) = f a := rfl

theorem except_error_bind {α β : Type} (e : PyErr)
    (f : α → Except PyErr β) :
    ((Except.error e : Except PyErr α) >>= f) = Except.error e := rfl

theorem lookup_set_user_self (st : UCState) (u : String) (r : UserRec) :
    lookup_user (set_user st u r) u = some r := by
  induction st with
  | nil => simp [set_user, lookup_user, List.find?]
  | cons p t ih =>
    by_cases h : p.1 == u
    · simp [set_user, h, lookup_user, List.find?]
    · simp only [set_user]
      rw [if_neg (by simpa using h)]
      simp only [lookup_user, List.find?, h] at ih ⊢
      exact ih

theorem lookup_set_user_other (st : UCState) (u v : String) (r : UserRec)
    (huv : (v == u) = false) :
    lookup_user (set_user st u r) v = lookup_user st v := by
  induction st with
  | nil =>
    simp only [set_user, lookup_user, List.find?]
    have : ((u, r).1 == v) = false := by
      simp only [beq_eq_false_iff_ne] at huv ⊢
      exact fun h => huv h.symm
    rw [this]
  | cons p t ih =>
    by_cases h : p.1 == u
    · have hpv : (p.1 == v) = false := by
        simp only [beq_eq_false_iff_ne] at huv ⊢
        rw [beq_iff_eq] at h
        rw [h]
        exact fun hvu => huv hvu.symm
      simp [set_user, h, lookup_user, List.find?, hpv]
    · simp only [set_user]
      rw [if_neg (by simpa using h)]
      by_cases hpv : p.1 == v
      · simp [lookup_user, List.find?, hpv]
      · simp only [lookup_user, List.find?, hpv] at ih ⊢
        simpa [hpv] using ih

theorem pyEqLink_self (L : LinkV) :
    pyEqLink (.linkObj L.link L.user) L = true := by
  simp [pyEqLink]

theorem erase_link_append {igs : List PyVal} {L : LinkV} {x : PyVal}
    (habs : ∀ v ∈ igs, pyEqLink v L = false)
    (hx : pyEqLink x L = true) :
    erase_link (igs ++ [x]) L = igs := by
  induction igs with
  | nil => simp [erase_link, hx]
  | cons v t ih =>
    have hv : pyEqLink v L = false := habs v (by simp)
    simp only [List.cons_append, erase_link, hv, Bool.false_eq_true,
      if_false, List.append_eq]
    rw [ih (fun w hw => habs w (by simp [hw]))]

/-! ## Claim C8 -/

/-- C8 counterexample: the claim quantifies over every store state, but
on a state whose owner already ignores the link the first of the two
calls removes it and returns `False` (and the second re-adds it and
returns `True`), not `True` then `False`. The first conjunct grounds the
state as the result of a toggle on the empty store. -/
theorem c8_toggle_returns_false_when_present :
    toggle_ignore_link emptyUC
        "https://www.tiktok.com/@a/video/1111111111111111111" =
      .ok (true, [("a",
        ⟨some (.str "20000101"), some (.str ""),
          some [.linkObj
            "https://www.tiktok.com/@a/video/1111111111111111111" "a"]⟩)]) ∧
    toggle_ignore_link
        [("a",
          ⟨some (.str "20000101"), some (.str ""),
            some [.linkObj
              "https://www.tiktok.com/@a/video/1111111111111111111" "a"]⟩)]
        "https://www.tiktok.com/@a/video/1111111111111111111" =
      .ok (false, [("a",
        ⟨some (.str "20000101"), some (.str ""), some []⟩)]) :=
  ⟨rfl, rfl⟩

theorem toggle_link_obj_involutive (st : UCState) (L : LinkV)
    (huser : username_is_valid L.user = true)
    (hkey : ignore_key_ok st L.user = true)
    (habs : (ignore_list_of st L.user).any
        (fun v => pyEqLink v L) = false) :
    ∃ st1 st2,
      toggle_link_obj st L = .ok (true, st1) ∧
      toggle_link_obj st1 L = .ok (false, st2) ∧
      ignore_list_of st2 L.user = ignore_list_of st L.user := by
  cases hl : lookup_user st L.user with
  | none =>
    have hig0 : ignore_list_of st L.user = [] := by
      simp [ignore_list_of, hl]
    rw [hig0] at habs
    refine ⟨set_user (set_user st L.user
        ⟨some (.str "20000101"), some (.str ""), some []⟩) L.user
        ⟨some (.str "20000101"), some (.str ""),
          some [.linkObj L.link L.user]⟩,
      set_user (set_user (set_user st L.user
            ⟨some (.str "20000101"), some (.str ""), some []⟩) L.user
          ⟨some (.str "20000101"), some (.str ""),
            some [.linkObj L.link L.user]⟩) L.user
        ⟨some (.str "20000101"), some (.str ""), some []⟩,
      ?_, ?_, ?_⟩
    · simp [toggle_link_obj, toggle_link_body, hl, create_new_user,
        huser, lookup_set_user_self]
    · simp [toggle_link_obj, toggle_link_body, lookup_set_user_self,
        pyEqLink_self, erase_link]
    · rw [hig0]
      simp [ignore_list_of, lookup_set_user_self]
  | some r =>
    rw [ignore_key_ok, hl] at hkey
    simp only [Option.isSome_iff_exists] at hkey
    obtain ⟨igs, higs⟩ := hkey
    have hig0 : ignore_list_of st L.user = igs := by
      simp [ignore_list_of, hl, higs]
    rw [hig0] at habs
    have habs2 : ∀ v ∈ igs, pyEqLink v L = false := by
      intro v hv
      exact Bool.eq_false_iff.mpr (List.any_eq_false.mp habs v hv)
    refine ⟨set_user st L.user
        { r with ignore := some (igs ++ [.linkObj L.link L.user]) },
      set_user (set_user st L.user
          { r with ignore := some (igs ++ [.linkObj L.link L.user]) })
        L.user
        { r with ignore := some igs },
      ?_, ?_, ?_⟩
    · simp only [toggle_link_obj, toggle_link_body, hl, higs, habs,
        Bool.false_eq_true, if_false]
    · have herase : erase_link (igs ++ [.linkObj L.link L.user]) L = igs :=
        erase_link_append habs2 (pyEqLink_self L)
      simp only [toggle_link_obj, toggle_link_body, lookup_set_user_self,
        List.any_append, habs, List.any_cons, List.any_nil,
        pyEqLink_self, Bool.false_or, Bool.true_or, Bool.or_false,
        if_true, herase]
    · rw [hig0]
      simp [ignore_list_of, lookup_set_user_self]

/-- C8, amended: when the link is valid, its owner a valid username, the
owner's `ignore` key intact, and the link not currently in the owner's
ignore list, toggling twice returns `True` then `False` and restores the
owner's ignore list to its original state; on a state where the link is
already ignored the two calls return `False` then `True` instead. -/
theorem c8_toggle_involutive_when_absent (st : UCState) (raw : String)
    (huser : username_is_valid (mkLink raw).user = true)
    (hkey : ignore_key_ok st (mkLink raw).user = true)
    (habs : (ignore_list_of st (mkLink raw).user).any
        (fun v => pyEqLink v (mkLink raw)) = false) :
    ∃ st1 st2,
      toggle_ignore_link st raw = .ok (true, st1) ∧
      toggle_ignore_link st1 raw = .ok (false, st2) ∧
      ignore_list_of st2 (mkLink raw).user =
        ignore_list_of st (mkLink raw).user :=
  toggle_link_obj_involutive st (mkLink raw) huser hkey habs

/-- Witness for C8's amended theorem: the empty store and a fresh valid
link. -/
theorem c8_toggle_involutive_when_absent_witness :
    ∃ st1 st2,
      toggle_ignore_link emptyUC
          "https://www.tiktok.com/@b/video/2222222222222222222" =
        .ok (true, st1) ∧
      toggle_ignore_link st1
          "https://www.tiktok.com/@b/video/2222222222222222222" =
        .ok (false, st2) ∧
      ignore_list_of st2
          (mkLink "https://www.tiktok.com/@b/video/2222222222222222222").user =
        ignore_list_of emptyUC
          (mkLink "https://www.tiktok.com/@b/video/2222222222222222222").user :=
  c8_toggle_involutive_when_absent emptyUC
    "https://www.tiktok.com/@b/video/2222222222222222222"
    (by decide) (by decide) (by decide)

/-! ## Claim C1 -/

/-- C1: the save/load round-trip is impossible for any valid non-empty
store. The store created by `set_not_before("user1", "20200101")` on a
fresh `UserConfig` satisfies every validation rule, yet `save_config`
raises `TypeError`: `json.dump` receives a dict keyed by `Username`
instances (with `Date` objects among the values), which it cannot
serialise, so no file is produced to load back. -/
theorem c1_save_config_raises_typeerror :
    set_not_before emptyUC "user1" "20200101" = .ok one_user_store ∧
    save_config one_user_store = .error .typeError :=
  ⟨rfl, rfl⟩

/-! ## Claim C2 -/

/-- C2: with the two-member whitelist `{"b", "c"}` and a single resolved
link owned by `"a"`, the post-filter loop removes the link once for each
non-matching whitelist member; the second `set.remove` raises `KeyError`
and `process_inputs` aborts instead of completing. -/
theorem c2_whitelist_filter_raises_keyerror :
    process_inputs 10 resolver_stub_env
      ["https://www.tiktok.com/@a/video/1111111111111111111"]
      ["b", "c"] = .error .keyError :=
  rfl

/-! ## Claim C3 -/

/-- C3: `load_config` copies the `comment` field without any validation
(src/tiktok_common.py:550-551), so the document of
`test_with_invalid_comment`, whose comment is the non-string `[9]`,
loads successfully and replaces the map — it neither raises `ValueError`
as the test expects nor leaves the previous map in place. -/
theorem c3_load_accepts_nonstring_comment :
    load_config doc_nonstring_comment =
      .ok [("username",
        ⟨some (.dateObj "20200505"), some (.arr [.int 9]), some []⟩)] :=
  rfl

/-! ## Claim C5 -/

/-- C5: the case-collision skip on src/tiktok_common.py:541 never fires
(see `username_key_collides`), so with the canonical `"user1"` record
first and `"USER1"` second, the second entry recreates and overwrites
the record: the surviving entry carries `USER1`'s values
(`notbefore "12345678"`, `comment "abc"`), not the canonical-cased
entry's (`"20200505"`, `"Hello"`) as the claim requires. -/
theorem c5_last_raw_key_wins_on_case_collision :
    load_config doc_case_collision =
      .ok [("user1",
        ⟨some (.dateObj "12345678"), some (.str "abc"), some []⟩)] ∧
    notbefore_string (after_load emptyUC doc_case_collision) "user1" =
      some "12345678" ∧
    comment_string (after_load emptyUC doc_case_collision) "user1" =
      some "abc" :=
  ⟨rfl, rfl, rfl⟩

/-! ## Claim C4 -/

/-- C4 counterexample: resolving the three Scenario D inputs (with no
existing files and a fetcher that finds nothing) reports exactly one
invalid input, not two: `"nonexistent_file.txt_placeholder"` consists
only of characters in `[a-z0-9_.]` and is therefore a valid username,
handled by the username branch rather than reported. -/
theorem c4_scenario_reports_one_invalid_input :
    resolution_invalid_count
      (process_inputs 10 resolver_stub_env scenario_d_inputs []) =
      some 1 ∧ (1 : Nat) ≠ 2 :=
  ⟨rfl, by decide⟩

theorem process_inputs_internal_all_invalid (env : ResolveEnv)
    (wl : List String) :
    ∀ (inputs : List String) (fuel : Nat) (acc : Resolution),
      inputs.length < fuel →
      (∀ i ∈ inputs, link_is_valid (clean_up_link i) = false ∧
        env.isFile i = false ∧
        username_is_valid (clean_up_username i) = false) →
      process_inputs_internal fuel env wl inputs acc =
        .ok { acc with invalid := acc.invalid ++ inputs } := by
  intro inputs
  induction inputs with
  | nil =>
    intro fuel acc hf _
    cases fuel with
    | zero => omega
    | succ f => simp [process_inputs_internal]
  | cons i t ih =>
    intro fuel acc hf hall
    cases fuel with
    | zero => omega
    | succ f =>
      have hi := hall i (by simp)
      simp only [process_inputs_internal, hi.1, hi.2.1, hi.2.2,
        Bool.false_eq_true, if_false]
      rw [ih f _ (by simpa using Nat.lt_of_succ_lt_succ hf)
        (fun j hj => hall j (by simp [hj]))]
      simp [List.append_assoc]

/-- C4, amended: resolving the Scenario D inputs yields a link set of
size one, raises no exception, and reports exactly one invalid input
(`"not a valid user!!"`); `"nonexistent_file.txt_placeholder"` is a
valid username, so it is scraped as a user page and recorded in the
username set instead of being reported. In general, a batch whose every
input is neither a valid link, nor an existing file, nor a valid
username finishes without raising and reports each such input. -/
theorem c4_resolver_accumulate_and_continue :
    process_inputs 10 resolver_stub_env scenario_d_inputs [] =
      .ok ⟨["https://www.tiktok.com/@a/video/1111111111111111111"],
        ["nonexistent_file.txt_placeholder", "a"], [], [],
        ["not a valid user!!"]⟩ ∧
    (∀ (fuel : Nat) (env : ResolveEnv) (wl inputs : List String),
      inputs.length < fuel →
      (∀ i ∈ inputs, link_is_valid (clean_up_link i) = false ∧
        env.isFile i = false ∧
        username_is_valid (clean_up_username i) = false) →
      process_inputs_internal fuel env wl inputs emptyRes =
        .ok { emptyRes with invalid := inputs }) :=
  ⟨rfl, fun fuel env wl inputs hf hall => by
    rw [process_inputs_internal_all_invalid env wl inputs fuel emptyRes
      hf hall]
    rfl⟩

/-- Witness for C4's amended theorem: one invalid input resolved against
the stub environment. -/
theorem c4_resolver_accumulate_and_continue_witness :
    process_inputs_internal 2 resolver_stub_env [] ["not a valid user!!"]
      emptyRes = .ok ⟨[], [], [], [], ["not a valid user!!"]⟩ :=
  c4_resolver_accumulate_and_continue.2 2 resolver_stub_env []
    ["not a valid user!!"] (by decide) (by decide)

/-! ## Claim C6 -/

/-- C6 counterexample: a store state reachable by one public operation
(a `load_config` of `doc_foreign_link` from the empty store) in which
`user1`'s ignore list holds a link whose extracted owner is `user2` —
`load_config` only checks `link_is_valid` on ignore entries, never
ownership. -/
theorem c6_load_breaks_ignore_ownership :
    Reachable (step_op emptyUC (.loadOp doc_foreign_link)) ∧
    ignore_owned (step_op emptyUC (.loadOp doc_foreign_link)) = false :=
  ⟨Reachable.step (.loadOp doc_foreign_link) Reachable.init, rfl⟩

/-! ## Generic map-invariant lemmas -/

theorem all_set_user {p : String × UserRec → Bool} {st : UCState}
    {u : String} {r : UserRec}
    (hst : st.all p = true) (hr : p (u, r) = true) :
    (set_user st u r).all p = true := by
  induction st with
  | nil => simp [set_user, hr]
  | cons q t ih =>
    simp only [List.all_cons, Bool.and_eq_true] at hst
    by_cases h : (q.1 == u) = true
    · simp only [set_user, h, if_true, List.all_cons, Bool.and_eq_true]
      rw [beq_iff_eq.mp h]
      exact ⟨hr, hst.2⟩
    · simp only [set_user, h, Bool.false_eq_true, if_false,
        List.all_cons, Bool.and_eq_true]
      exact ⟨hst.1, ih hst.2⟩

theorem pred_of_lookup {p : String × UserRec → Bool} {st : UCState}
    {u : String} {r : UserRec}
    (hst : st.all p = true) (hl : lookup_user st u = some r) :
    p (u, r) = true := by
  unfold lookup_user at hl
  cases hf : st.find? (fun q => q.1 == u) with
  | none => rw [hf] at hl; cases hl
  | some q =>
    rw [hf] at hl
    have hq := List.find?_some hf
    have hmem := List.mem_of_find?_eq_some hf
    have hall := List.all_eq_true.mp hst q hmem
    cases hl
    rw [← beq_iff_eq.mp hq]
    simpa using hall

theorem lookup_none_of_invalid {st : UCState} {u : String}
    (hk : keys_valid st = true) (hu : username_is_valid u = false) :
    lookup_user st u = none := by
  unfold lookup_user
  cases hf : st.find? (fun q => q.1 == u) with
  | none => rfl
  | some q =>
    have hq := List.find?_some hf
    have hmem := List.mem_of_find?_eq_some hf
    have hv := List.all_eq_true.mp hk q hmem
    rw [beq_iff_eq.mp hq] at hv
    exact absurd hv (by simp [hu])

theorem all_erase_link {q : PyVal → Bool} {igs : List PyVal} {L : LinkV}
    (h : igs.all q = true) : (erase_link igs L).all q = true := by
  induction igs with
  | nil => simp [erase_link]
  | cons v t ih =>
    simp only [List.all_cons, Bool.and_eq_true] at h
    by_cases hv : pyEqLink v L = true
    · simpa [erase_link, hv] using h.2
    · simp only [erase_link, hv, Bool.false_eq_true, if_false,
        List.all_cons, Bool.and_eq_true]
      exact ⟨h.1, ih h.2⟩

theorem all_filter_of_all {α} {p q : α → Bool} {l : List α}
    (h : l.all p = true) : (l.filter q).all p = true := by
  induction l with
  | nil => rfl
  | cons a t ih =>
    simp only [List.all_cons, Bool.and_eq_true] at h
    by_cases hq : q a = true
    · simp only [List.filter_cons, hq, if_true, List.all_cons,
        Bool.and_eq_true]
      exact ⟨h.1, ih h.2⟩
    · simp only [List.filter_cons, hq, Bool.false_eq_true, if_false]
      exact ih h.2

theorem keys_valid_of_inv_nl {st : UCState} (h : inv_nl st = true) :
    keys_valid st = true := by
  rw [keys_valid, List.all_eq_true]
  intro q hq
  have := List.all_eq_true.mp h q hq
  rw [nl_entry_ok, Bool.and_eq_true] at this
  exact this.1

theorem ignore_owned_of_inv_nl {st : UCState} (h : inv_nl st = true) :
    ignore_owned st = true := by
  rw [ignore_owned, List.all_eq_true]
  intro q hq
  have := List.all_eq_true.mp h q hq
  rw [nl_entry_ok, Bool.and_eq_true] at this
  exact this.2

/-! ## Ownership preservation by the load-free operations -/

theorem mkLink_owner_self {raw : String}
    (hv : username_is_valid (mkLink raw).user = true) :
    (extract_user_segment (mkLink raw).link == (mkLink raw).user) = true := by
  by_cases hval : link_is_valid (clean_up_link raw) = true
  · simp [mkLink, hval]
  · have hu : (mkLink raw).user = "" := by simp [mkLink, hval]
    rw [hu] at hv
    exact absurd hv (by decide)

theorem inv_nl_set_property {st st' : UCState} {u : String}
    {f : UserRec → UserRec}
    (hinv : inv_nl st = true)
    (hvalid : ∀ r, username_is_valid u = true → nl_entry_ok (u, r) = true →
      nl_entry_ok (u, f r) = true)
    (h : set_property st u f = .ok st') : inv_nl st' = true := by
  unfold set_property at h
  cases hl : lookup_user st u with
  | some r =>
    simp only [hl] at h
    unfold set_field at h
    simp only [hl] at h
    cases h
    have hp := pred_of_lookup hinv hl
    have hu : username_is_valid u = true := by
      have := hp
      rw [nl_entry_ok, Bool.and_eq_true] at this
      exact this.1
    exact all_set_user hinv (hvalid r hu hp)
  | none =>
    simp only [hl] at h
    unfold create_new_user at h
    by_cases hu : username_is_valid u = true
    · rw [if_pos hu] at h
      simp only [] at h
      unfold set_field at h
      simp only [lookup_set_user_self] at h
      cases h
      have hdef : nl_entry_ok
          (u, ⟨some (.str "20000101"), some (.str ""), some []⟩) = true := by
        simp [nl_entry_ok, entry_owned, hu]
      exact all_set_user (all_set_user hinv hdef) (hvalid _ hu hdef)
    · rw [if_neg hu] at h
      simp only [] at h
      cases h

theorem inv_nl_toggle {st st' : UCState} {raw : String} {b : Bool}
    (hinv : inv_nl st = true)
    (h : toggle_ignore_link st raw = .ok (b, st')) : inv_nl st' = true := by
  have hbody : ∀ {st1 : UCState}, inv_nl st1 = true →
      username_is_valid (mkLink raw).user = true →
      toggle_link_body st1 (mkLink raw) = .ok (b, st') →
      inv_nl st' = true := by
    intro st1 hinv1 hu hb
    unfold toggle_link_body at hb
    cases hl1 : lookup_user st1 (mkLink raw).user with
    | none =>
      simp only [hl1] at hb
      cases hb
    | some r =>
      simp only [hl1] at hb
      cases hig : r.ignore with
      | none =>
        simp only [hig] at hb
        cases hb
      | some igs =>
        simp only [hig] at hb
        have hp := pred_of_lookup hinv1 hl1
        have howned : igs.all (fun v =>
            match v with
            | .linkObj l _ => extract_user_segment l == (mkLink raw).user
            | _ => false) = true := by
          have := hp
          rw [nl_entry_ok, Bool.and_eq_true] at this
          have h2 := this.2
          rw [entry_owned] at h2
          simpa [hig] using h2
        by_cases hmem : igs.any (fun v => pyEqLink v (mkLink raw)) = true
        · rw [if_pos hmem] at hb
          cases hb
          refine all_set_user hinv1 ?_
          simp only [nl_entry_ok, entry_owned, Bool.and_eq_true]
          exact ⟨hu, by simpa using all_erase_link howned⟩
        · rw [if_neg hmem] at hb
          cases hb
          refine all_set_user hinv1 ?_
          simp only [nl_entry_ok, entry_owned, Bool.and_eq_true]
          refine ⟨hu, ?_⟩
          simp only [Option.getD_some, List.all_append, List.all_cons,
            List.all_nil, Bool.and_eq_true]
          exact ⟨howned, by simp [mkLink_owner_self hu]⟩
  unfold toggle_ignore_link toggle_link_obj at h
  cases hl : lookup_user st (mkLink raw).user with
  | none =>
    simp only [hl] at h
    unfold create_new_user at h
    by_cases hu : username_is_valid (mkLink raw).user = true
    · rw [if_pos hu] at h
      simp only [] at h
      have hdef : nl_entry_ok ((mkLink raw).user,
          ⟨some (.str "20000101"), some (.str ""), some []⟩) = true := by
        simp [nl_entry_ok, entry_owned, hu]
      exact hbody (all_set_user hinv hdef) hu h
    · rw [if_neg hu] at h
      simp only [] at h
      cases h
  | some r =>
    simp only [hl] at h
    have hp := pred_of_lookup hinv hl
    have hu : username_is_valid (mkLink raw).user = true := by
      rw [nl_entry_ok, Bool.and_eq_true] at hp
      exact hp.1
    exact hbody hinv hu h

theorem inv_nl_step {st : UCState} (op : UOp)
    (hinv : inv_nl st = true) (hop : op.isLoad = false) :
    inv_nl (step_op st op) = true := by
  unfold step_op
  cases hap : apply_op st op with
  | error e => exact hinv
  | ok st' =>
    cases op with
    | loadOp doc => cases hop
    | setNotBeforeOp u d =>
      simp only [apply_op, set_not_before] at hap
      by_cases hd : date_is_valid (clean_up_date d) = true
      · rw [if_pos hd] at hap
        show inv_nl st' = true
        refine inv_nl_set_property hinv ?_ hap
        intro r hu hok
        simp only [nl_entry_ok, entry_owned, Bool.and_eq_true] at hok ⊢
        exact ⟨hu, hok.2⟩
      · rw [if_neg hd] at hap
        cases hap
    | setCommentOp u c =>
      simp only [apply_op, set_comment] at hap
      show inv_nl st' = true
      refine inv_nl_set_property hinv ?_ hap
      intro r hu hok
      simp only [nl_entry_ok, entry_owned, Bool.and_eq_true] at hok ⊢
      exact ⟨hu, hok.2⟩
    | setOp p u v =>
      simp only [apply_op, set_dispatch] at hap
      by_cases h1 : (p == "notbefore") = true
      · rw [if_pos h1] at hap
        simp only [set_not_before] at hap
        by_cases hd : date_is_valid (clean_up_date v) = true
        · rw [if_pos hd] at hap
          show inv_nl st' = true
          refine inv_nl_set_property hinv ?_ hap
          intro r hu hok
          simp only [nl_entry_ok, entry_owned, Bool.and_eq_true] at hok ⊢
          exact ⟨hu, hok.2⟩
        · rw [if_neg hd] at hap
          cases hap
      · rw [if_neg h1] at hap
        by_cases h2 : (p == "comment") = true
        · rw [if_pos h2] at hap
          simp only [set_comment] at hap
          show inv_nl st' = true
          refine inv_nl_set_property hinv ?_ hap
          intro r hu hok
          simp only [nl_entry_ok, entry_owned, Bool.and_eq_true] at hok ⊢
          exact ⟨hu, hok.2⟩
        · rw [if_neg h2] at hap
          by_cases h3 : (p == "ignore") = true
          · rw [if_pos h3] at hap; cases hap
          · rw [if_neg h3] at hap; cases hap
    | toggleOp l =>
      simp only [apply_op] at hap
      cases ht : toggle_ignore_link st l with
      | error e => rw [ht] at hap; cases hap
      | ok bs =>
        rw [ht] at hap
        simp only [Except.map] at hap
        cases hap
        exact inv_nl_toggle hinv (by rw [ht])
    | deleteOp u =>
      simp only [apply_op, delete_user] at hap
      cases hl : lookup_user st (clean_up_username u) with
      | none => rw [hl] at hap; cases hap
      | some r =>
        rw [hl] at hap
        simp only [] at hap
        cases hap
        exact all_filter_of_all hinv

theorem inv_nl_reachable {st : UCState} (h : ReachableNL st) :
    inv_nl st = true := by
  induction h with
  | init => rfl
  | step op hop _ ih => exact inv_nl_step op ih hop

/-- C6, amended: in every store state reachable from the empty store by
public operations other than `load_config`, every link in a user's
ignore list belongs to that user (the mutating toggle derives the owner
from the link itself); `load_config`, however, keeps any ignore entry
that is merely link-valid without checking ownership, so a loaded
document can place another user's link in a user's ignore list. -/
theorem c6_ignore_ownership_without_load {st : UCState}
    (h : ReachableNL st) : ignore_owned st = true :=
  ignore_owned_of_inv_nl (inv_nl_reachable h)

/-- Witness for C6's amended theorem: the store reached by toggling one
valid link from the empty store. -/
theorem c6_ignore_ownership_without_load_witness :
    ignore_owned (step_op emptyUC (.toggleOp
      "https://www.tiktok.com/@c/video/3333333333333333333")) = true :=
  c6_ignore_ownership_without_load
    (ReachableNL.step (.toggleOp
      "https://www.tiktok.com/@c/video/3333333333333333333")
      (by decide) ReachableNL.init)

/-! ## Record-shape preservation (claim C9) -/

theorem shaped_set_field {st st' : UCState} {u : String}
    {f : UserRec → UserRec}
    (hws : well_shaped st = true)
    (hf : ∀ r, rec_shaped r = true → rec_shaped (f r) = true)
    (h : set_field st u f = .ok st') : well_shaped st' = true := by
  unfold set_field at h
  cases hl : lookup_user st u with
  | none =>
    simp only [hl] at h
    cases h
  | some r =>
    simp only [hl] at h
    cases h
    exact all_set_user hws (hf r (pred_of_lookup hws hl))

theorem shaped_create {st st' : UCState} {u : String}
    (hws : well_shaped st = true)
    (h : create_new_user st u = .ok st') : well_shaped st' = true := by
  unfold create_new_user at h
  by_cases hu : username_is_valid u = true
  · rw [if_pos hu] at h
    cases h
    exact all_set_user hws (by simp [rec_shaped])
  · rw [if_neg hu] at h
    cases h

theorem shaped_set_property {st st' : UCState} {u : String}
    {f : UserRec → UserRec}
    (hws : well_shaped st = true)
    (hf : ∀ r, rec_shaped r = true → rec_shaped (f r) = true)
    (h : set_property st u f = .ok st') : well_shaped st' = true := by
  unfold set_property at h
  cases hl : lookup_user st u with
  | some r =>
    simp only [hl] at h
    exact shaped_set_field hws hf h
  | none =>
    simp only [hl] at h
    cases hc : create_new_user st u with
    | error e =>
      simp only [hc] at h
      cases h
    | ok st1 =>
      simp only [hc] at h
      exact shaped_set_field (shaped_create hws hc) hf h

theorem shaped_append_valid_links :
    ∀ {elems : List PyVal} {st st' : UCState} {u : String},
      well_shaped st = true → append_valid_links st u elems = .ok st' →
      well_shaped st' = true := by
  intro elems
  induction elems with
  | nil =>
    intro st st' u hws h
    unfold append_valid_links at h
    cases h
    exact hws
  | cons e t ih =>
    intro st st' u hws h
    unfold append_valid_links at h
    cases hm : mkLinkOf e with
    | error err =>
      simp only [hm] at h
      cases h
    | ok L =>
      simp only [hm] at h
      by_cases hv : link_is_valid L.link = true
      · rw [if_pos hv] at h
        cases hsf : set_field st u (fun r =>
            { r with ignore :=
                r.ignore.map (fun l => l ++ [.linkObj L.link L.user]) }) with
        | error err =>
          simp only [hsf] at h
          cases h
        | ok st1 =>
          simp only [hsf] at h
          refine ih ?_ h
          refine shaped_set_field hws ?_ hsf
          intro r hr
          simp only [rec_shaped, Bool.and_eq_true] at hr ⊢
          obtain ⟨ig, hig⟩ := Option.isSome_iff_exists.mp hr.2
          exact ⟨hr.1, by simp [hig]⟩
      · rw [if_neg hv] at h
        exact ih hws h

theorem shaped_load_one {cfg cfg' : UCState} {doc : List (String × PyVal)}
    {k : String} {v : PyVal}
    (hws : well_shaped cfg = true)
    (h : load_one cfg doc k v = .ok cfg') : well_shaped cfg' = true := by
  unfold load_one at h
  simp only [username_key_collides, Bool.and_false, Bool.false_eq_true,
    if_false] at h
  cases hc : create_new_user cfg (clean_up_username k) with
  | error e =>
    simp only [hc] at h
    cases h
  | ok cfg1 =>
    simp only [hc] at h
    cases hnb : pyGetItem v "notbefore" with
    | error e =>
      simp only [hnb] at h
      cases h
    | ok nbRaw =>
      simp only [hnb] at h
      cases hdt : mkDateOf nbRaw with
      | error e =>
        simp only [hdt] at h
        cases h
      | ok d =>
        simp only [hdt] at h
        by_cases hdv : date_is_valid d = true
        · rw [if_pos hdv] at h
          cases hsf1 : set_field cfg1 (clean_up_username k)
              (fun r => { r with notbefore := some (.dateObj d) }) with
          | error e =>
            simp only [hsf1] at h
            cases h
          | ok cfg2 =>
            simp only [hsf1] at h
            cases hcm : pyGetItem v "comment" with
            | error e =>
              simp only [hcm] at h
              cases h
            | ok cRaw =>
              simp only [hcm] at h
              cases hsf2 : set_field cfg2 (clean_up_username k)
                  (fun r => { r with comment := some cRaw }) with
              | error e =>
                simp only [hsf2] at h
                cases h
              | ok cfg3 =>
                simp only [hsf2] at h
                cases hgi : pyGetItem v "ignore" with
                | error e =>
                  simp only [hgi] at h
                  cases h
                | ok igRaw =>
                  simp only [hgi] at h
                  cases hit : pyIterElems igRaw with
                  | error e =>
                    simp only [hit] at h
                    cases h
                  | ok elems =>
                    simp only [hit] at h
                    have hws1 := shaped_create hws hc
                    have hws2 := shaped_set_field hws1
                      (f := fun r =>
                        { r with notbefore := some (.dateObj d) })
                      (fun r hr => by
                        simp only [rec_shaped, Bool.and_eq_true] at hr ⊢
                        exact ⟨⟨rfl, hr.1.2⟩, hr.2⟩) hsf1
                    have hws3 := shaped_set_field hws2
                      (f := fun r => { r with comment := some cRaw })
                      (fun r hr => by
                        simp only [rec_shaped, Bool.and_eq_true] at hr ⊢
                        exact ⟨⟨hr.1.1, rfl⟩, hr.2⟩) hsf2
                    exact shaped_append_valid_links hws3 h
        · rw [if_neg hdv] at h
          cases h

theorem shaped_load_entries :
    ∀ {entries : List (String × PyVal)} {doc : List (String × PyVal)}
      {cfg cfg' : UCState},
      well_shaped cfg = true → load_entries doc cfg entries = .ok cfg' →
      well_shaped cfg' = true := by
  intro entries
  induction entries with
  | nil =>
    intro doc cfg cfg' hws h
    cases h
    exact hws
  | cons p t ih =>
    intro doc cfg cfg' hws h
    obtain ⟨k, v⟩ := p
    unfold load_entries at h
    cases hone : load_one cfg doc k v with
    | error e =>
      simp only [hone] at h
      cases h
    | ok cfg1 =>
      simp only [hone] at h
      exact ih (shaped_load_one hws hone) h

theorem shaped_load_config {doc : List (String × PyVal)} {st' : UCState}
    (h : load_config doc = .ok st') : well_shaped st' = true := by
  unfold load_config at h
  exact shaped_load_entries (show well_shaped emptyUC = true from rfl) h

theorem shaped_toggle {st st' : UCState} {raw : String} {b : Bool}
    (hws : well_shaped st = true)
    (h : toggle_ignore_link st raw = .ok (b, st')) :
    well_shaped st' = true := by
  have hbody : ∀ {st1 : UCState}, well_shaped st1 = true →
      toggle_link_body st1 (mkLink raw) = .ok (b, st') →
      well_shaped st' = true := by
    intro st1 hws1 hb
    unfold toggle_link_body at hb
    cases hl1 : lookup_user st1 (mkLink raw).user with
    | none =>
      simp only [hl1] at hb
      cases hb
    | some r =>
      simp only [hl1] at hb
      cases hig : r.ignore with
      | none =>
        simp only [hig] at hb
        cases hb
      | some igs =>
        simp only [hig] at hb
        have hshape := pred_of_lookup hws1 hl1
        by_cases hmem : igs.any (fun v => pyEqLink v (mkLink raw)) = true
        · rw [if_pos hmem] at hb
          cases hb
          refine all_set_user hws1 ?_
          simp only [rec_shaped, Bool.and_eq_true] at hshape ⊢
          exact ⟨hshape.1, rfl⟩
        · rw [if_neg hmem] at hb
          cases hb
          refine all_set_user hws1 ?_
          simp only [rec_shaped, Bool.and_eq_true] at hshape ⊢
          exact ⟨hshape.1, rfl⟩
  unfold toggle_ignore_link toggle_link_obj at h
  cases hl : lookup_user st (mkLink raw).user with
  | none =>
    simp only [hl] at h
    cases hc : create_new_user st (mkLink raw).user with
    | error e =>
      simp only [hc] at h
      cases h
    | ok st1 =>
      simp only [hc] at h
      exact hbody (shaped_create hws hc) h
  | some r =>
    simp only [hl] at h
    exact hbody hws h

theorem well_shaped_step {st : UCState} (op : UOp)
    (hws : well_shaped st = true) :
    well_shaped (step_op st op) = true := by
  unfold step_op
  cases hap : apply_op st op with
  | error e => exact hws
  | ok st' =>
    cases op with
    | loadOp doc =>
      simp only [apply_op] at hap
      exact shaped_load_config hap
    | setNotBeforeOp u d =>
      simp only [apply_op, set_not_before] at hap
      by_cases hd : date_is_valid (clean_up_date d) = true
      · rw [if_pos hd] at hap
        show well_shaped st' = true
        refine shaped_set_property hws ?_ hap
        intro r hr
        simp only [rec_shaped, Bool.and_eq_true] at hr ⊢
        exact ⟨⟨rfl, hr.1.2⟩, hr.2⟩
      · rw [if_neg hd] at hap
        cases hap
    | setCommentOp u c =>
      simp only [apply_op, set_comment] at hap
      show well_shaped st' = true
      refine shaped_set_property hws ?_ hap
      intro r hr
      simp only [rec_shaped, Bool.and_eq_true] at hr ⊢
      exact ⟨⟨hr.1.1, rfl⟩, hr.2⟩
    | setOp p u v =>
      simp only [apply_op, set_dispatch] at hap
      by_cases h1 : (p == "notbefore") = true
      · rw [if_pos h1] at hap
        simp only [set_not_before] at hap
        by_cases hd : date_is_valid (clean_up_date v) = true
        · rw [if_pos hd] at hap
          show well_shaped st' = true
          refine shaped_set_property hws ?_ hap
          intro r hr
          simp only [rec_shaped, Bool.and_eq_true] at hr ⊢
          exact ⟨⟨rfl, hr.1.2⟩, hr.2⟩
        · rw [if_neg hd] at hap
          cases hap
      · rw [if_neg h1] at hap
        by_cases h2 : (p == "comment") = true
        · rw [if_pos h2] at hap
          simp only [set_comment] at hap
          show well_shaped st' = true
          refine shaped_set_property hws ?_ hap
          intro r hr
          simp only [rec_shaped, Bool.and_eq_true] at hr ⊢
          exact ⟨⟨hr.1.1, rfl⟩, hr.2⟩
        · rw [if_neg h2] at hap
          by_cases h3 : (p == "ignore") = true
          · rw [if_pos h3] at hap; cases hap
          · rw [if_neg h3] at hap; cases hap
    | toggleOp l =>
      simp only [apply_op] at hap
      cases ht : toggle_ignore_link st l with
      | error e => rw [ht] at hap; cases hap
      | ok bs =>
        rw [ht] at hap
        simp only [Except.map] at hap
        cases hap
        exact shaped_toggle hws (by rw [ht])
    | deleteOp u =>
      simp only [apply_op, delete_user] at hap
      cases hl : lookup_user st (clean_up_username u) with
      | none => rw [hl] at hap; cases hap
      | some r =>
        rw [hl] at hap
        simp only [] at hap
        cases hap
        exact all_filter_of_all hws

theorem well_shaped_reachable {st : UCState} (h : Reachable st) :
    well_shaped st = true := by
  induction h with
  | init => rfl
  | step op _ ih => exact well_shaped_step op ih

/-- C9: in every reachable Policy Store state, every stored record
contains all three properties, so for every configured user both
`get_not_before` and `get_comment` return a value instead of taking the
missing-property (`ValueError`) branch of `__get_property`. -/
theorem c9_record_shape_invariant {st : UCState} {u : String}
    (hr : Reachable st) (hc : user_is_configured st u = true) :
    (∃ v, get_not_before st u = .ok v) ∧
    (∃ c, get_comment st u = .ok c) := by
  have hws := well_shaped_reachable hr
  unfold user_is_configured at hc
  rw [Option.isSome_iff_exists] at hc
  obtain ⟨r, hl⟩ := hc
  have hshape := pred_of_lookup hws hl
  simp only [rec_shaped, Bool.and_eq_true] at hshape
  constructor
  · obtain ⟨v, hv⟩ := Option.isSome_iff_exists.mp hshape.1.1
    refine ⟨v, ?_⟩
    unfold get_not_before get_property
    simp only [hl, hv]
  · obtain ⟨c, hcm⟩ := Option.isSome_iff_exists.mp hshape.1.2
    refine ⟨c, ?_⟩
    unfold get_comment get_property
    simp only [hl, hcm]

/-- Witness for C9 at the store reached by one `set_not_before` call. -/
theorem c9_record_shape_invariant_witness :
    (∃ v, get_not_before
      (step_op emptyUC (.setNotBeforeOp "user1" "20200101")) "user1" =
        .ok v) ∧
    (∃ c, get_comment
      (step_op emptyUC (.setNotBeforeOp "user1" "20200101")) "user1" =
        .ok c) :=
  c9_record_shape_invariant
    (Reachable.step (.setNotBeforeOp "user1" "20200101") Reachable.init)
    (by decide)

/-! ## Claim C10 -/

theorem load_one_invalid_key {cfg : UCState} {doc : List (String × PyVal)}
    {k : String} {v : PyVal}
    (hbad : username_is_valid (clean_up_username k) = false) :
    load_one cfg doc k v = .error .keyError := by
  unfold load_one
  simp only [username_key_collides, Bool.and_false, Bool.false_eq_true,
    if_false]
  unfold create_new_user
  rw [if_neg (by simp [hbad])]

theorem load_entries_error_of_bad_key :
    ∀ (entries doc : List (String × PyVal)) (cfg : UCState),
      (∃ k ∈ entries.map Prod.fst,
        username_is_valid (clean_up_username k) = false) →
      ∃ e, load_entries doc cfg entries = .error e := by
  intro entries
  induction entries with
  | nil =>
    intro doc cfg h
    obtain ⟨k, hk, _⟩ := h
    simp at hk
  | cons p t ih =>
    intro doc cfg h
    obtain ⟨k, hk, hbad⟩ := h
    obtain ⟨k0, v0⟩ := p
    simp only [List.map_cons, List.mem_cons] at hk
    unfold load_entries
    cases hk with
    | inl hkk =>
      subst hkk
      rw [load_one_invalid_key hbad]
      exact ⟨.keyError, rfl⟩
    | inr hkt =>
      cases hone : load_one cfg doc k0 v0 with
      | error e => exact ⟨e, rfl⟩
      | ok cfg1 =>
        obtain ⟨e, he⟩ := ih doc cfg1 ⟨k, hkt, hbad⟩
        exact ⟨e, he⟩

/-- C10: when any top-level key of an otherwise well-formed document
folds to an invalid username, the loop's `__create_new_user` call raises
`KeyError` for that key (the case-collision skip never applies), the
entire load fails, and the in-memory map is left exactly as it was —
the offending record is never silently dropped. -/
theorem c10_invalid_key_fails_load (st : UCState)
    (doc : List (String × PyVal)) (k : String)
    (hk : k ∈ doc.map Prod.fst)
    (hbad : username_is_valid (clean_up_username k) = false) :
    (∃ e, load_config doc = .error e) ∧ after_load st doc = st := by
  have h : ∃ e, load_config doc = .error e := by
    unfold load_config
    exact load_entries_error_of_bad_key doc doc emptyUC ⟨k, hk, hbad⟩
  refine ⟨h, ?_⟩
  obtain ⟨e, he⟩ := h
  unfold after_load
  rw [he]

/-- Witness for C10: loading a document keyed `"BAD KEY!"` over the
one-user store fails and leaves the store unchanged. -/
theorem c10_invalid_key_fails_load_witness :
    (∃ e, load_config doc_invalid_key = .error e) ∧
    after_load one_user_store doc_invalid_key = one_user_store :=
  c10_invalid_key_fails_load one_user_store doc_invalid_key "BAD KEY!"
    (by decide) (by decide)

end TiktokDl
